import Mathlib

/-!
Verification of the inference pipeline of the EmotionDetection web
application (WebApplication/App/views.py, class Predict).

The embedding models the pipeline logic of Predict.post and
Predict.classtoemotion over rational numbers in place of floats.
Library calls (librosa decoding, librosa MFCC, keras forward pass) are
abstracted as function parameters whose documented shape contracts appear
as explicit hypotheses, so every theorem states exactly what the code in
views.py guarantees on top of those contracts.
-/

namespace EmotionDetection

/-- An uploaded audio file as received by Predict.post (views.py line 223):
a file name and its raw byte content. -/
structure UploadedFile where
  name : String
  content : List Nat
deriving Repr, DecidableEq

/-- Decoded audio as produced by the decoding step (views.py line 234):
a numeric sample sequence together with the sample rate reported by the
decoder; the call passes sr=None, so the native sample rate of the file is
kept and no resampling happens. -/
structure DecodedAudio where
  data : List ℚ
  samplingRate : ℚ
deriving Repr, DecidableEq

/-- Error kinds raised inside the try block of Predict.post and caught by
its except clause (views.py lines 233-242), following the taxonomy of the
specification: undecodable audio, zero-sample audio, and failures of the
model forward pass. -/
inductive PipelineExc where
  | decodeError (msg : String)
  | emptySignalError (msg : String)
  | inferenceError (msg : String)
deriving Repr, DecidableEq

/-- The message carried by a pipeline error; Predict.post answers with
str(e) of the caught exception (views.py line 242). -/
def PipelineExc.message : PipelineExc → String
  | .decodeError m => m
  | .emptySignalError m => m
  | .inferenceError m => m

/-- Whether an error kind is a malformed-input error (decode or empty
signal) as opposed to a model failure. -/
def PipelineExc.isInputError : PipelineExc → Bool
  | .decodeError _ => true
  | .emptySignalError _ => true
  | .inferenceError _ => false

/-- np.mean(matrix.T, axis=0) of views.py line 235: the MFCC matrix has one
row per coefficient, and the mean of the transpose along axis 0 is the mean
of each coefficient row across time.  A row is averaged by dividing its sum
by its length (an empty row averages to 0). -/
def meanOverTime (m : List (List ℚ)) : List ℚ :=
  m.map (fun row => row.sum / (row.length : ℚ))

/-- np.expand_dims(mfccs, axis=2) of views.py line 236 applied to the
rank-1 vector of 40 means: appends a trailing channel axis, giving a
column of singleton rows. -/
def expandDimsLast (v : List ℚ) : List (List ℚ) :=
  v.map (fun x => [x])

/-- np.expand_dims(features, axis=0) of views.py line 237: prepends a
batch axis of size 1. -/
def expandDims0 (m : List (List ℚ)) : List (List (List ℚ)) :=
  [m]

/-- The feature-extraction steps of Predict.post (views.py lines 234-237).
The librosa MFCC computation is abstracted as the argument mfccF; as in the
source it is called with the decoded samples, the decoded native sample
rate, and the coefficient count 40, and returns the coefficient matrix as
the list of its coefficient rows. -/
def extractFeatures (mfccF : List ℚ → ℚ → Nat → List (List ℚ))
    (audio : DecodedAudio) : List (List (List ℚ)) :=
  expandDims0 (expandDimsLast (meanOverTime (mfccF audio.data audio.samplingRate 40)))

/-- np.argmax of views.py line 239: the index of the maximal entry of a
score vector, ties resolved to the first (lowest) occurrence, which is the
documented numpy behaviour.  On the empty vector the model result is 0
(numpy raises there; no claim uses that case). -/
def argmax : List ℚ → Nat
  | [] => 0
  | [_] => 0
  | x :: y :: ys =>
    let i := argmax (y :: ys)
    if x < (y :: ys).getD i 0 then i + 1 else 0

/-- Predict.classtoemotion (views.py lines 250-262): the literal
class-to-label dictionary, with dict.get returning the sentinel "unknown"
for any key outside the table and never raising. -/
def classtoemotion (pred : Int) : String :=
  if pred = 0 then "neutral"
  else if pred = 1 then "calm"
  else if pred = 2 then "happy"
  else if pred = 3 then "sad"
  else if pred = 4 then "angry"
  else if pred = 5 then "fearful"
  else if pred = 6 then "disgust"
  else if pred = 7 then "surprised"
  else "unknown"

/-- The fixed 8-label emotion set, in class-index order. -/
def emotionLabels : List String :=
  ["neutral", "calm", "happy", "sad", "angry", "fearful", "disgust", "surprised"]

/-- The body of the try block of Predict.post (views.py lines 233-240):
decode the staged bytes, extract features, run the forward pass, take the
arg-max of the first output row, and map it through the label table.
decode and modelPredict abstract the librosa and keras calls; each reports
failure as a PipelineExc, the exceptions the except clause catches. -/
def tryPipeline
    (decode : List Nat → Except PipelineExc DecodedAudio)
    (mfccF : List ℚ → ℚ → Nat → List (List ℚ))
    (modelPredict : List (List (List ℚ)) → Except PipelineExc (List (List ℚ)))
    (content : List Nat) : Except PipelineExc String := do
  let audio ← decode content
  let features := extractFeatures mfccF audio
  let preds ← modelPredict features
  let cls := argmax (preds.headD [])
  pure (classtoemotion (cls : Int))

/-- An HTTP response as built by Predict.post: the JSON body as a list of
key-value pairs and the status code. -/
structure Resp where
  body : List (String × String)
  status : Nat
deriving Repr, DecidableEq

/-- The media directory (settings.MEDIA_ROOT), abstracted as a fixed
path. -/
def MEDIA_ROOT : String := "media"

/-- os.path.join(settings.MEDIA_ROOT, name) of views.py line 228. -/
def tmpPath (name : String) : String := MEDIA_ROOT ++ "/" ++ name

/-- Predict.post (views.py lines 222-248).  The filesystem is modelled as
the list of existing media paths.  With no file in the request, an error
response is returned at once.  Otherwise the upload is staged under its
own name in the media directory, the pipeline runs inside try/except, the
finally clause removes the staged file, and the response is the prediction
body with status 200 on success or the error body with status 400 on any
caught exception. -/
def post
    (decode : List Nat → Except PipelineExc DecodedAudio)
    (mfccF : List ℚ → ℚ → Nat → List (List ℚ))
    (modelPredict : List (List (List ℚ)) → Except PipelineExc (List (List ℚ)))
    (fs : List String) (req : Option UploadedFile) : Resp × List String :=
  match req with
  | none => (⟨[("error", "No audio file provided")], 400⟩, fs)
  | some f =>
    let tmp := tmpPath f.name
    let fs1 := tmp :: fs
    let fs2 := fs1.filter (fun p => p != tmp)
    match tryPipeline decode mfccF modelPredict f.content with
    | .error e => (⟨[("error", e.message)], 400⟩, fs2)
    | .ok label => (⟨[("prediction", label)], 200⟩, fs2)

/-- A constructed Predict instance: Predict.__init__ (views.py lines
217-220) assigns self.model from one load_model call, unconditionally,
with no once-per-process guard anywhere in the class or module. -/
structure PredictInstance where
  modelLoaded : Bool
deriving Repr, DecidableEq

/-- Construction of a Predict instance, threading the count of load_model
executions performed so far in the process: each construction performs
exactly one load execution (views.py lines 217-220). -/
def initPredict (loads : Nat) : PredictInstance × Nat :=
  (⟨true⟩, loads + 1)

/-- Serving one request: the Django as_view dispatch constructs a fresh
view instance for every incoming request, so each served request runs
Predict.__init__ and hence one load_model execution. -/
def dispatchRequest (loads : Nat) : Nat :=
  (initPredict loads).2

/-- The number of load_model executions after serving a sequence of n
requests in one process, starting from a given count. -/
def loadsAfter : Nat → Nat → Nat
  | 0, loads => loads
  | n + 1, loads => loadsAfter n (dispatchRequest loads)

/-- The extraction slice of the pipeline on its own (views.py lines
234-235): decode the bytes and compute the 40 time-axis means, before
reshaping. -/
def extract
    (decode : List Nat → Except PipelineExc DecodedAudio)
    (mfccF : List ℚ → ℚ → Nat → List (List ℚ))
    (content : List Nat) : Except PipelineExc (List ℚ) := do
  let audio ← decode content
  pure (meanOverTime (mfccF audio.data audio.samplingRate 40))

/-- C1: classtoemotion maps 0..7 to the literal table (read off the ordered
label list) and every other integer, negative ones included, to the
sentinel "unknown", without raising. -/
theorem classtoemotion_spec (i : Int) :
    classtoemotion i
      = (if 0 ≤ i ∧ i ≤ 7 then emotionLabels.getD i.toNat "unknown" else "unknown")
    ∧ (classtoemotion i = "unknown" ↔ i < 0 ∨ 7 < i) := by
  by_cases h : 0 ≤ i ∧ i ≤ 7
  · obtain ⟨h1, h2⟩ := h
    interval_cases i <;> decide
  · have hrange : i < 0 ∨ 7 < i := by omega
    have hu : classtoemotion i = "unknown" := by
      unfold classtoemotion
      split_ifs <;> first | rfl | omega
    exact ⟨by rw [hu, if_neg h], iff_of_true hu hrange⟩

/-- C1 concrete checks: a table entry, a large index and a negative index
evaluate as the claim states. -/
theorem classtoemotion_spec_witness :
    classtoemotion 3 = "sad" ∧ classtoemotion 9 = "unknown"
      ∧ classtoemotion (-1) = "unknown" :=
  ⟨by rw [(classtoemotion_spec 3).1]; decide,
   by rw [(classtoemotion_spec 9).1]; decide,
   by rw [(classtoemotion_spec (-1)).1]; decide⟩

lemma argmax_cons_cons (x y : ℚ) (ys : List ℚ) :
    argmax (x :: y :: ys)
      = if x < (y :: ys).getD (argmax (y :: ys)) 0 then argmax (y :: ys) + 1 else 0 := by
  simp [argmax]

lemma argmax_lt_length (l : List ℚ) (h : l ≠ []) : argmax l < l.length := by
  induction l with
  | nil => exact absurd rfl h
  | cons x t ih =>
    match t with
    | [] => simp [argmax]
    | y :: ys =>
      rw [argmax_cons_cons]
      have h1 := ih (by simp)
      simp only [List.length_cons] at h1 ⊢
      split <;> omega

lemma argmax_is_max (l : List ℚ) :
    ∀ j < l.length, l.getD j 0 ≤ l.getD (argmax l) 0 := by
  induction l with
  | nil => intro j hj; simp at hj
  | cons x t ih =>
    match t with
    | [] =>
      intro j hj
      simp at hj
      subst hj
      simp [argmax]
    | y :: ys =>
      intro j hj
      rw [argmax_cons_cons]
      split
      · rename_i hlt
        rw [List.getD_cons_succ]
        match j with
        | 0 => exact le_of_lt hlt
        | j + 1 =>
          rw [List.getD_cons_succ]
          exact ih j (by simpa using hj)
      · rename_i hge
        rw [List.getD_cons_zero]
        match j with
        | 0 => simp
        | j + 1 =>
          rw [List.getD_cons_succ]
          exact le_trans (ih j (by simpa using hj)) (not_lt.mp hge)

lemma argmax_lowest (l : List ℚ) :
    ∀ j < argmax l, l.getD j 0 < l.getD (argmax l) 0 := by
  induction l with
  | nil => intro j hj; simp [argmax] at hj
  | cons x t ih =>
    match t with
    | [] => intro j hj; simp [argmax] at hj
    | y :: ys =>
      intro j hj
      rw [argmax_cons_cons] at hj ⊢
      split
      · rename_i hlt
        rw [List.getD_cons_succ]
        match j with
        | 0 => exact hlt
        | j + 1 =>
          rw [List.getD_cons_succ]
          rw [if_pos hlt] at hj
          exact ih j (by omega)
      · rename_i hge
        rw [if_neg hge] at hj
        omega

/-- C2: whenever the library MFCC call honours its shape contract (the
matrix has one row per requested coefficient), the time-axis mean vector
computed by Predict.post has exactly 40 entries whatever the duration of
the decoded audio, the MFCC call receives the decoded native sample rate,
and the reshaped tensor passed to the model has shape (1, 40, 1). -/
theorem extractFeatures_shape
    (mfccF : List ℚ → ℚ → Nat → List (List ℚ))
    (hF : ∀ y sr n, (mfccF y sr n).length = n)
    (audio : DecodedAudio) :
    (meanOverTime (mfccF audio.data audio.samplingRate 40)).length = 40
    ∧ extractFeatures mfccF audio
        = expandDims0 (expandDimsLast (meanOverTime (mfccF audio.data audio.samplingRate 40)))
    ∧ (extractFeatures mfccF audio).length = 1
    ∧ ∀ m ∈ extractFeatures mfccF audio,
        m.length = 40 ∧ ∀ r ∈ m, r.length = 1 := by
  refine ⟨?_, rfl, rfl, ?_⟩
  · simp [meanOverTime, hF]
  · intro m hm
    simp only [extractFeatures, expandDims0, List.mem_singleton] at hm
    subst hm
    constructor
    · simp [expandDimsLast, meanOverTime, hF]
    · intro r hr
      simp only [expandDimsLast, List.mem_map] at hr
      obtain ⟨x, -, hx⟩ := hr
      simp [← hx]

/-- C2 concrete check: a constant MFCC stub honours the shape contract and
the extracted tensor has shape (1, 40, 1). -/
theorem extractFeatures_shape_witness :
    (∀ y sr n, ((fun (_ : List ℚ) (_ : ℚ) (n : Nat) =>
        List.replicate n ([] : List ℚ)) y sr n).length = n)
    ∧ (meanOverTime ((fun (_ : List ℚ) (_ : ℚ) (n : Nat) =>
        List.replicate n ([] : List ℚ)) [0] 22050 40)).length = 40 := by
  refine ⟨fun y sr n => List.length_replicate n [], ?_⟩
  exact (extractFeatures_shape
    (fun _ _ n => List.replicate n ([] : List ℚ))
    (fun y sr n => List.length_replicate n [])
    ⟨[0], 22050⟩).1

lemma pure_eq_ok {ε α : Type} (a : α) : (pure a : Except ε α) = Except.ok a := rfl

lemma ok_bind {ε α β : Type} (a : α) (f : α → Except ε β) :
    (Except.ok a : Except ε α) >>= f = f a := rfl

lemma error_bind {ε α β : Type} (e : ε) (f : α → Except ε β) :
    (Except.error e : Except ε α) >>= f = Except.error e := rfl

lemma classtoemotion_argmax_mem (scores : List ℚ) (h : scores.length = 8) :
    classtoemotion (argmax scores : Int) ∈ emotionLabels
    ∧ classtoemotion (argmax scores : Int) ≠ "unknown" := by
  have hne : scores ≠ [] := by
    intro hs
    rw [hs] at h
    simp at h
  have hlt : argmax scores < 8 := by
    have := argmax_lt_length scores hne
    omega
  set k := argmax scores with hk
  interval_cases k <;> decide

/-- C3: along the success path of Predict.post, when the model output row
has width exactly 8, the returned label is one of the eight emotion labels
and never the sentinel "unknown", because the arg-max of an 8-wide vector
lies in [0,7], the exact domain of the label table. -/
theorem predict_label_in_set
    (decode : List Nat → Except PipelineExc DecodedAudio)
    (mfccF : List ℚ → ℚ → Nat → List (List ℚ))
    (modelPredict : List (List (List ℚ)) → Except PipelineExc (List (List ℚ)))
    (content : List Nat) (audio : DecodedAudio) (preds : List (List ℚ))
    (hdec : decode content = Except.ok audio)
    (hpred : modelPredict (extractFeatures mfccF audio) = Except.ok preds)
    (hw : (preds.headD []).length = 8) :
    tryPipeline decode mfccF modelPredict content
      = Except.ok (classtoemotion (argmax (preds.headD []) : Int))
    ∧ classtoemotion (argmax (preds.headD []) : Int) ∈ emotionLabels
    ∧ classtoemotion (argmax (preds.headD []) : Int) ≠ "unknown" := by
  refine ⟨?_, classtoemotion_argmax_mem _ hw⟩
  simp [tryPipeline, hdec, hpred, ok_bind]

/-- C3 concrete check: with a decoder, MFCC and model stub whose output row
is the zero vector of width 8, the pipeline returns "neutral", a member of
the label set. -/
theorem predict_label_in_set_witness :
    tryPipeline (fun _ => Except.ok ⟨[0], 22050⟩)
        (fun _ _ n => List.replicate n ([] : List ℚ))
        (fun _ => Except.ok [List.replicate 8 (0 : ℚ)]) [1]
      = Except.ok (classtoemotion
          (argmax (([List.replicate 8 (0 : ℚ)]).headD []) : Int))
    ∧ classtoemotion (argmax (([List.replicate 8 (0 : ℚ)]).headD []) : Int)
        ∈ emotionLabels := by
  have h := predict_label_in_set (fun _ => Except.ok ⟨[0], 22050⟩)
    (fun _ _ n => List.replicate n ([] : List ℚ))
    (fun _ => Except.ok [List.replicate 8 (0 : ℚ)]) [1]
    ⟨[0], 22050⟩ [List.replicate 8 (0 : ℚ)] rfl rfl (by decide)
  exact ⟨h.1, h.2.1⟩

/-- C4: class selection is arg-max with ties broken by lowest index: if
two classes i and j share the maximal score, the selected index attains
the maximum and is at most both i and j (and likewise at most every other
maximal index), so the lowest tied index is chosen deterministically. -/
theorem argmax_tie_lowest (l : List ℚ) (i j : Nat)
    (hij : i < j) (hj : j < l.length)
    (hmaxi : ∀ k < l.length, l.getD k 0 ≤ l.getD i 0)
    (heq : l.getD i 0 = l.getD j 0) :
    (∀ k < l.length, l.getD k 0 ≤ l.getD (argmax l) 0)
    ∧ argmax l ≤ i ∧ argmax l ≤ j
    ∧ ∀ k < l.length, (∀ m < l.length, l.getD m 0 ≤ l.getD k 0) → argmax l ≤ k := by
  have hne : l ≠ [] := by
    intro hl
    rw [hl] at hj
    simp at hj
  have hmax := argmax_is_max l
  have hlow := argmax_lowest l
  have hlen := argmax_lt_length l hne
  have key : ∀ k < l.length, (∀ m < l.length, l.getD m 0 ≤ l.getD k 0) → argmax l ≤ k := by
    intro k hk hkmax
    by_contra hgt
    have h1 : l.getD k 0 < l.getD (argmax l) 0 := hlow k (by omega)
    have h2 : l.getD (argmax l) 0 ≤ l.getD k 0 := hkmax (argmax l) hlen
    exact absurd h2 (not_le.mpr h1)
  have hi : i < l.length := by omega
  have hmaxj : ∀ m < l.length, l.getD m 0 ≤ l.getD j 0 := by
    intro m hm
    rw [← heq]
    exact hmaxi m hm
  exact ⟨hmax, key i hi hmaxi, key j hj hmaxj, key⟩

/-- C4 concrete check: on the tied vector [1, 5, 5] the selected index is
at most 1, the lower of the two tied maximal indices. -/
theorem argmax_tie_lowest_witness :
    argmax [(1 : ℚ), 5, 5] ≤ 1 ∧ argmax [(1 : ℚ), 5, 5] = 1 := by
  refine ⟨(argmax_tie_lowest [(1 : ℚ), 5, 5] 1 2 (by decide) (by decide)
    (by decide) (by decide)).2.1, by decide⟩

/-- C5: when the uploaded content is the empty byte sequence and the
decoder rejects it with a malformed-input error (decode error or
empty-signal error, the behaviour of the audio loader on empty input),
Predict.post returns the error body carrying the message of that error
with status 400: the exception is caught at the request boundary, and no
prediction body is produced from a silent zero feature vector. -/
theorem post_empty_bytes_error
    (decode : List Nat → Except PipelineExc DecodedAudio)
    (mfccF : List ℚ → ℚ → Nat → List (List ℚ))
    (modelPredict : List (List (List ℚ)) → Except PipelineExc (List (List ℚ)))
    (fs : List String) (f : UploadedFile) (e : PipelineExc)
    (hempty : f.content = [])
    (_hinput : e.isInputError = true)
    (hdec : decode [] = Except.error e) :
    (post decode mfccF modelPredict fs (some f)).1
      = ⟨[("error", e.message)], 400⟩
    ∧ ∀ label, (post decode mfccF modelPredict fs (some f)).1.body
        ≠ [("prediction", label)] := by
  have hpipe : tryPipeline decode mfccF modelPredict f.content = Except.error e := by
    rw [tryPipeline, hempty, hdec, error_bind]
  constructor
  · simp [post, hpipe]
  · intro label
    simp [post, hpipe]

/-- C5 concrete check: a decoder stub that rejects every byte stream with
an empty-signal error yields the 400 error response on the empty upload. -/
theorem post_empty_bytes_error_witness :
    (PipelineExc.emptySignalError "zero samples").isInputError = true
    ∧ (post (fun _ => Except.error (PipelineExc.emptySignalError "zero samples"))
        (fun _ _ n => List.replicate n ([] : List ℚ))
        (fun _ => Except.ok [List.replicate 8 (0 : ℚ)])
        [] (some ⟨"a.wav", []⟩)).1
      = ⟨[("error", (PipelineExc.emptySignalError "zero samples").message)], 400⟩ := by
  refine ⟨rfl, ?_⟩
  exact (post_empty_bytes_error
    (fun _ => Except.error (PipelineExc.emptySignalError "zero samples"))
    (fun _ _ n => List.replicate n ([] : List ℚ))
    (fun _ => Except.ok [List.replicate 8 (0 : ℚ)])
    [] ⟨"a.wav", []⟩ (PipelineExc.emptySignalError "zero samples")
    rfl rfl rfl).1

/-- C6: every response built by Predict.post has one of exactly two body
shapes: a single-key prediction object on success, or a single-key error
object on failure; no other shape is produced. -/
theorem post_body_shape
    (decode : List Nat → Except PipelineExc DecodedAudio)
    (mfccF : List ℚ → ℚ → Nat → List (List ℚ))
    (modelPredict : List (List (List ℚ)) → Except PipelineExc (List (List ℚ)))
    (fs : List String) (req : Option UploadedFile) :
    (∃ label, (post decode mfccF modelPredict fs req).1.body
        = [("prediction", label)])
    ∨ (∃ m, (post decode mfccF modelPredict fs req).1.body = [("error", m)]) := by
  match req with
  | none => exact Or.inr ⟨"No audio file provided", rfl⟩
  | some f =>
    cases hp : tryPipeline decode mfccF modelPredict f.content with
    | error e =>
      refine Or.inr ⟨e.message, ?_⟩
      simp [post, hp]
    | ok label =>
      refine Or.inl ⟨label, ?_⟩
      simp [post, hp]

/-- C9: the extraction slice of the pipeline is a pure function of the
uploaded bytes: byte-identical inputs produce identical results (the
source calls no randomness anywhere in decoding, MFCC computation or
averaging), and any successfully extracted vector has exactly 40
entries whenever the MFCC call honours its shape contract. -/
theorem extract_deterministic
    (decode : List Nat → Except PipelineExc DecodedAudio)
    (mfccF : List ℚ → ℚ → Nat → List (List ℚ))
    (hF : ∀ y sr n, (mfccF y sr n).length = n)
    (b1 b2 : List Nat) (hb : b1 = b2) :
    extract decode mfccF b1 = extract decode mfccF b2
    ∧ ∀ v, extract decode mfccF b1 = Except.ok v → v.length = 40 := by
  subst hb
  refine ⟨rfl, ?_⟩
  intro v hv
  rw [extract] at hv
  cases hd : decode b1 with
  | error e =>
    rw [hd, error_bind] at hv
    exact absurd hv (by simp)
  | ok audio =>
    rw [hd, ok_bind, pure_eq_ok] at hv
    have hv2 : meanOverTime (mfccF audio.data audio.samplingRate 40) = v :=
      Except.ok.inj hv
    rw [← hv2]
    simp [meanOverTime, hF]

/-- C9 concrete check: on a fixed decoder and MFCC stub, extraction of the
byte stream [1, 2] equals itself and succeeds with a 40-entry vector. -/
theorem extract_deterministic_witness :
    extract (fun _ => Except.ok ⟨[0], 22050⟩)
        (fun _ _ n => List.replicate n ([] : List ℚ)) [1, 2]
      = extract (fun _ => Except.ok ⟨[0], 22050⟩)
        (fun _ _ n => List.replicate n ([] : List ℚ)) [1, 2]
    ∧ (meanOverTime (List.replicate 40 ([] : List ℚ))).length = 40 := by
  have h := extract_deterministic (fun _ => Except.ok ⟨[0], 22050⟩)
    (fun _ _ n => List.replicate n ([] : List ℚ))
    (fun y sr n => List.length_replicate n []) [1, 2] [1, 2] rfl
  refine ⟨h.1, h.2 (meanOverTime (List.replicate 40 ([] : List ℚ))) ?_⟩
  rw [extract, ok_bind, pure_eq_ok]

/-- Decoder stub accepting every byte stream with a fixed decoded
signal. -/
def decodeOkStub : List Nat → Except PipelineExc DecodedAudio :=
  fun _ => Except.ok ⟨[0], 22050⟩

/-- MFCC stub honouring the librosa shape contract: one row per requested
coefficient. -/
def mfccStub : List ℚ → ℚ → Nat → List (List ℚ) :=
  fun _ _ n => List.replicate n []

/-- Forward-pass stub failing with an inference error, a model failure
rather than malformed input. -/
def inferFailStub : List (List (List ℚ)) → Except PipelineExc (List (List ℚ)) :=
  fun _ => Except.error (PipelineExc.inferenceError "shape mismatch")

/-- C8 counterexample: an inference failure inside the forward pass is a
model failure, not malformed input, yet Predict.post answers it with
status 400, which is in the client-error class and below every
server-error status: all caught exceptions reach the one except clause of
views.py line 242 and share its 400. -/
theorem inference_error_maps_to_400 :
    (PipelineExc.inferenceError "shape mismatch").isInputError = false
    ∧ (post decodeOkStub mfccStub inferFailStub [] (some ⟨"a.wav", [1]⟩)).1.status = 400
    ∧ (post decodeOkStub mfccStub inferFailStub [] (some ⟨"a.wav", [1]⟩)).1.status < 500 := by
  refine ⟨rfl, ?_, ?_⟩ <;>
    simp [post, tryPipeline, decodeOkStub, inferFailStub, ok_bind, error_bind]

/-- C8 amended: inside Predict.post every caught pipeline failure,
malformed input and model failure alike, is answered with the single
status 400 of the except clause, a client-error status; the handler
produces no server-error status for any error kind. -/
theorem post_error_status_uniform
    (decode : List Nat → Except PipelineExc DecodedAudio)
    (mfccF : List ℚ → ℚ → Nat → List (List ℚ))
    (modelPredict : List (List (List ℚ)) → Except PipelineExc (List (List ℚ)))
    (fs : List String) (f : UploadedFile) (e : PipelineExc)
    (h : tryPipeline decode mfccF modelPredict f.content = Except.error e) :
    (post decode mfccF modelPredict fs (some f)).1.status = 400
    ∧ (post decode mfccF modelPredict fs (some f)).1.status < 500 := by
  constructor <;> simp [post, h]

/-- C8 amended, concrete check: the inference-failure stub is answered
with status 400. -/
theorem post_error_status_uniform_witness :
    (post decodeOkStub mfccStub inferFailStub [] (some ⟨"a.wav", [1]⟩)).1.status = 400 :=
  (post_error_status_uniform decodeOkStub mfccStub inferFailStub []
    ⟨"a.wav", [1]⟩ (PipelineExc.inferenceError "shape mismatch") rfl).1

/-- C7 counterexample: serving two requests in one process performs two
load_model executions, not at most one: Predict.__init__ loads the model
unconditionally with no once-per-process guard, and the framework
constructs a fresh Predict instance for every request. -/
theorem loadsAfter_two_requests :
    loadsAfter 2 0 = 2 ∧ 1 < loadsAfter 2 0 := by
  constructor <;> decide

/-- C7 amended: the load step executes exactly once per served request
rather than once per process lifetime: after n requests the process has
performed n load executions, each request constructs and uses its own
fresh model instance, and nothing of a failed attempt is cached, so the
next request re-attempts the load. -/
theorem loadsAfter_eq_requests (n loads : Nat) :
    loadsAfter n loads = loads + n := by
  induction n generalizing loads with
  | zero => rfl
  | succ n ih =>
    rw [loadsAfter, dispatchRequest, initPredict, ih]
    omega

/-- C10: for every request carrying a file, the copy staged in the media
directory under the file name is removed by the finally clause before the
response is returned, on the success path and on every error path alike:
the final filesystem equals the staged filesystem with that path filtered
out, and contains zero occurrences of the staged path. -/
theorem post_removes_temp_file
    (decode : List Nat → Except PipelineExc DecodedAudio)
    (mfccF : List ℚ → ℚ → Nat → List (List ℚ))
    (modelPredict : List (List (List ℚ)) → Except PipelineExc (List (List ℚ)))
    (fs : List String) (f : UploadedFile) :
    (post decode mfccF modelPredict fs (some f)).2
      = (tmpPath f.name :: fs).filter (fun p => p != tmpPath f.name)
    ∧ ((post decode mfccF modelPredict fs (some f)).2).count (tmpPath f.name) = 0 := by
  have hsnd : (post decode mfccF modelPredict fs (some f)).2
      = (tmpPath f.name :: fs).filter (fun p => p != tmpPath f.name) := by
    cases hp : tryPipeline decode mfccF modelPredict f.content <;> simp [post, hp]
  refine ⟨hsnd, ?_⟩
  rw [hsnd, List.count_eq_zero]
  intro hmem
  have h2 := (List.mem_filter.mp hmem).2
  simp at h2

end EmotionDetection
